import Mathlib

/-!
Verification development for the MEV triangular-arbitrage bot
(`MEV_ARBITRAGE_BOT_V3`).  The Rust sources under `src/` are shallowly
embedded: pure functions become Lean functions, the global mutable state
(`ROUTE_STATS`, `EXECUTED_OPPORTUNITIES`) becomes explicitly threaded state,
external RPC calls (quoter, gas estimation, transaction submission, oracle
prices) become function parameters, `f64` quantities that the claims see only
through field arithmetic become `ℚ` (and `ℝ` where `log10` is involved),
`H160` addresses become `ℕ`, and `u64`/`U256` machine arithmetic is `ℕ`
with an explicit `% 2^w` wherever overflow can matter.
-/

namespace MevBot

/-- Ethereum address (`H160`), modelled as a natural number; the code only
compares, hashes and formats addresses. -/
abbrev H160 := Nat

/-- DEX flavour of a pool (`types::DexVariant`, used in `strategy.rs`); the
embedded code only passes it through to the abstract quoter. -/
inductive DexVariant where
  | uniswapV3
  | sushiV3
  | pancakeV3
deriving DecidableEq, Repr

/-- Pool record (`types::Pool` as used by `paths.rs` / `math.rs`): address,
DEX version, the two tokens, their decimals, the fee tier and the pool's TVL
in USD.  `tvl_usd` is `f64` in Rust, modelled as `ℚ`. -/
structure Pool where
  address : H160
  version : DexVariant
  token0 : H160
  token1 : H160
  decimals0 : Nat
  decimals1 : Nat
  fee : Nat
  tvl_usd : ℚ
deriving DecidableEq, Repr

/-- Oracle feed availability (`oracle::OracleMap::get_feeds(t).is_none()` is
the only way `paths.rs` consults the oracle map): `true` iff token `t` has a
price feed. -/
abbrev OracleMap := H160 → Bool

/-- Triangular arbitrage route `A -> B -> C -> A` (`paths::ArbPath`). -/
structure ArbPath where
  pool_1 : Pool
  pool_2 : Pool
  pool_3 : Pool
  token_a : H160
  token_b : H160
  token_c : H160
  score : ℚ
deriving DecidableEq, Repr

/-- Minimum pool TVL accepted by the pathfinder (`paths::MIN_TVL_USD`). -/
def MIN_TVL_USD : ℚ := 50000

/-- Per-token pool cap of the pathfinder (`paths::MAX_POOLS_PER_TOKEN`). -/
def MAX_POOLS_PER_TOKEN : Nat := 75

/-- Insertion step for sorting pools by descending TVL: models one pool being
placed by `sort_unstable_by(|a, b| b.tvl_usd.partial_cmp(&a.tvl_usd))`. -/
def insertByTvlDesc (p : Pool) : List Pool → List Pool
  | [] => [p]
  | q :: rest =>
      if p.tvl_usd ≤ q.tvl_usd then q :: insertByTvlDesc p rest
      else p :: q :: rest

/-- Deterministic model of the descending-TVL sort performed on each
per-token pool list in `generate_triangular_paths` (step 3). -/
def sortByTvlDesc : List Pool → List Pool
  | [] => []
  | p :: rest => insertByTvlDesc p (sortByTvlDesc rest)

/-- The per-token pool list of `generate_triangular_paths` (steps 2–3):
pools of `filtered` containing token `t`, pushed in iteration order (once for
a `token0` match and once for a `token1` match, as the Rust loop does), then
sorted by descending TVL and truncated to `MAX_POOLS_PER_TOKEN`.  The Rust
`HashMap` is only read back through `get`, so it is modelled as this
function. -/
def pools_by_token (filtered : List Pool) (t : H160) : List Pool :=
  (sortByTvlDesc (filtered.flatMap fun p =>
      (if p.token0 = t then [p] else []) ++
      (if p.token1 = t then [p] else []))).take MAX_POOLS_PER_TOKEN

/-- Embedding of `paths::generate_triangular_paths`: filter by TVL, group by
token, and enumerate `A -> B -> C -> A` routes with the source's guards
(distinct pool addresses, oracle feeds for the intermediate tokens,
`token_c ≠ token_in` and the third pool closing the loop). -/
def generate_triangular_paths (pools : List Pool) (token_in : H160)
    (oracle_map : OracleMap) : List ArbPath :=
  let filtered := pools.filter fun p => MIN_TVL_USD ≤ p.tvl_usd
  (pools_by_token filtered token_in).flatMap fun pool_ab =>
    let token_b := if pool_ab.token0 = token_in then pool_ab.token1 else pool_ab.token0
    if oracle_map token_b = false then [] else
    (pools_by_token filtered token_b).flatMap fun pool_bc =>
      if pool_bc.address = pool_ab.address then [] else
      let token_c := if pool_bc.token0 = token_b then pool_bc.token1 else pool_bc.token0
      if token_c = token_in then [] else
      if oracle_map token_c = false then [] else
      (pools_by_token filtered token_c).flatMap fun pool_ca =>
        if pool_ca.address = pool_ab.address ∨ pool_ca.address = pool_bc.address then [] else
        if (pool_ca.token0 = token_c ∧ pool_ca.token1 = token_in) ∨
           (pool_ca.token1 = token_c ∧ pool_ca.token0 = token_in) then
          [{ pool_1 := pool_ab, pool_2 := pool_bc, pool_3 := pool_ca,
             token_a := token_in, token_b := token_b, token_c := token_c,
             score := 0 }]
        else []

/-- Abstract quoter (`simulator::quote_exact_input_single` behind the RPC):
given DEX version, input token, output token, fee and input amount, returns
the quoted output amount, or `none` when the external call fails. -/
abbrev Quoter := DexVariant → H160 → H160 → Nat → Nat → Option Nat

/-- Hop direction chosen in `simulate_v3_path`: `(token_in, token_out)` for
a pool entered with `tin` (the `if pool.token0 == tin` selection). -/
def hopTokens (pool : Pool) (tin : H160) : H160 × H160 :=
  if pool.token0 = tin then (pool.token0, pool.token1)
  else (pool.token1, pool.token0)

/-- Embedding of `ArbPath::simulate_v3_path`: three quoted hops, aborting
with `none` when a quote fails or when the output of hop 1 or hop 2 is
zero. -/
def ArbPath.simulate_v3_path (quote : Quoter) (p : ArbPath)
    (amount_in : Nat) : Option Nat :=
  let t1 := hopTokens p.pool_1 p.token_a
  match quote p.pool_1.version t1.1 t1.2 p.pool_1.fee amount_in with
  | none => none
  | some amount_out_1 =>
    if amount_out_1 = 0 then none else
    let t2 := hopTokens p.pool_2 p.token_b
    match quote p.pool_2.version t2.1 t2.2 p.pool_2.fee amount_out_1 with
    | none => none
    | some amount_out_2 =>
      if amount_out_2 = 0 then none else
      let t3 := hopTokens p.pool_3 p.token_c
      match quote p.pool_3.version t3.1 t3.2 p.pool_3.fee amount_out_2 with
      | none => none
      | some final_amount_out => some final_amount_out

/-- Input decimals of a route (`ArbPath::get_input_decimals`). -/
def ArbPath.get_input_decimals (p : ArbPath) : Nat :=
  if p.pool_1.token0 = p.token_a then p.pool_1.decimals0 else p.pool_1.decimals1

/-- Pool address accessor of a route (`ArbPath::address`); `H160::zero()` is
`0` in the model. -/
def ArbPath.address (p : ArbPath) : Nat → H160
  | 1 => p.pool_1.address
  | 2 => p.pool_2.address
  | 3 => p.pool_3.address
  | _ => 0

/-- Runtime configuration fields of `config::Config` that the embedded code
reads (the remaining fields are connection strings and addresses). -/
structure Config where
  min_profit_usd : ℚ
  gas_limit : Nat
  max_bribe_percent : ℚ

/-- Per-route statistics record (`optimization::RouteHistory`); `Default`
zero-initialises every field. -/
structure RouteHistory where
  successes : Nat
  failures : Nat
  last_attempt_block : Nat
  last_failure_block : Nat
deriving DecidableEq, Repr

/-- Zero record produced by `RouteHistory::default()`. -/
def RouteHistory.default : RouteHistory :=
  { successes := 0, failures := 0, last_attempt_block := 0, last_failure_block := 0 }

/-- Embedding of `RouteHistory::winrate`: success ratio, `0.5` when the
route has no recorded attempts. -/
def RouteHistory.winrate (h : RouteHistory) : ℚ :=
  if h.successes + h.failures = 0 then 1/2
  else (h.successes : ℚ) / ((h.successes + h.failures : Nat) : ℚ)

/-- Embedding of `optimization::u256_to_decimal`: exact division by
`10^decimals` (`rust_decimal` is exact on these magnitudes). -/
def u256_to_decimal (val : Nat) (decimals : Nat) : ℚ :=
  (val : ℚ) / ((10 ^ decimals : Nat) : ℚ)

/-- Embedding of `optimization::decimal_to_u256`: scale by `10^decimals`,
round, and parse as `U256` — which fails on a negative value.  (Exactness
caveat: `rust_decimal` rounds half-to-even; the model rounds half-up; no
claim distinguishes the two.) -/
def decimal_to_u256 (val : ℚ) (decimals : Nat) : Option Nat :=
  let scaled := val * ((10 ^ decimals : Nat) : ℚ)
  if scaled < 0 then none else some (round scaled).toNat

/-- The `f64 → u64` cast used on bribe amounts: truncation toward zero with
negatives collapsing to `0`. -/
def ratToU64 (q : ℚ) : Nat := q.floor.toNat

/-- A profitable trade candidate (`optimization::ArbitrageOpportunity`). -/
structure ArbitrageOpportunity where
  path : ArbPath
  optimal_amount_in : Nat
  expected_output : Nat
  net_profit_usd : ℚ
  bribe_usd : ℚ
  lag : ℚ
  tvl : ℚ
  score : ℚ
  slippage_bps : Nat
deriving DecidableEq, Repr

/-- Oracle answer for the start token (`types::OraclePriceInfo` as consumed
by `find_best_trade_golden_section`). -/
structure OraclePriceInfo where
  price : ℚ
  lag : ℚ

/-- Embedding of `optimization::get_profit_for_amount` (net USD profit of
simulating the route at `amount_in`): `-1.0` on a zero amount, non-positive
oracle or ETH price, failed simulation, or non-increasing output; otherwise
gross profit in USD minus the estimated gas cost at the planned bribe. -/
def get_profit_for_amount (quote : Quoter) (cfg : Config) (path : ArbPath)
    (amount_in : Nat) (base_gas_price_wei : Nat)
    (oracle_price_usd eth_price_usd : ℚ) : ℚ :=
  if amount_in = 0 ∨ oracle_price_usd ≤ 0 ∨ eth_price_usd ≤ 0 then -1 else
  match path.simulate_v3_path quote amount_in with
  | none => -1
  | some gross_amount_out =>
    if gross_amount_out ≤ amount_in then -1 else
    let gross_profit_u256 := gross_amount_out - amount_in
    let gross_profit_dec := u256_to_decimal gross_profit_u256 path.get_input_decimals
    let gross_profit_usd := gross_profit_dec * oracle_price_usd
    let bribe_usd := gross_profit_usd * cfg.max_bribe_percent
    let bribe_eth := bribe_usd / eth_price_usd
    let priority_fee_wei := (decimal_to_u256 bribe_eth 18).getD 0
    let total_gas_price := base_gas_price_wei + priority_fee_wei
    let gas_cost_eth := u256_to_decimal (total_gas_price * cfg.gas_limit) 18
    let gas_cost_usd := gas_cost_eth * eth_price_usd
    gross_profit_usd - gas_cost_usd

/-- Modulus of `U256` arithmetic. -/
def U256_MOD : Nat := 2 ^ 256

/-- Wrapping `U256` addition. -/
def uadd (x y : Nat) : Nat := (x + y) % U256_MOD

/-- Wrapping `U256` subtraction (operands are reduced representatives). -/
def usub (x y : Nat) : Nat := (x + U256_MOD - y) % U256_MOD

/-- Wrapping `U256` multiplication. -/
def umul (x y : Nat) : Nat := (x * y) % U256_MOD

/-- State of the golden-section search: bracket `[a, b]`, probes `x1 ≤ x2`
and their cached objective values `f1`, `f2` (`f64`, modelled `ℚ`). -/
structure GsState where
  a : Nat
  b : Nat
  x1 : Nat
  x2 : Nat
  f1 : ℚ
  f2 : ℚ

/-- Lower probe `a + (b - a) * (10^18 - gr) / 10^18` in `U256` arithmetic. -/
def gsX1 (gr a b : Nat) : Nat :=
  uadd a (umul (usub b a) (usub (10 ^ 18) gr) / 10 ^ 18)

/-- Upper probe `a + (b - a) * gr / 10^18` in `U256` arithmetic. -/
def gsX2 (gr a b : Nat) : Nat :=
  uadd a (umul (usub b a) gr / 10 ^ 18)

/-- Convergence tolerance of the search (`10^15` wei). -/
def GS_TOL : Nat := 10 ^ 15

/-- One iteration of the `for _ in 0..15` loop of
`find_best_trade_golden_section`: no-op once the bracket is within
tolerance (the `break`), otherwise shrink towards the better probe and
re-evaluate the refreshed probe. -/
def gsStep (profit : Nat → ℚ) (gr : Nat) (s : GsState) : GsState :=
  if usub s.b s.a ≤ GS_TOL then s
  else if s.f2 < s.f1 then
    let b := s.x2
    let x1 := gsX1 gr s.a b
    { a := s.a, b := b, x1 := x1, x2 := s.x1, f1 := profit x1, f2 := s.f1 }
  else
    let a := s.x1
    let x2 := gsX2 gr a s.b
    { a := a, b := s.b, x1 := s.x2, x2 := x2, f1 := s.f2, f2 := profit x2 }

/-- Iterated golden-section steps (the loop runs `15` of them). -/
def gsLoop (profit : Nat → ℚ) (gr : Nat) : Nat → GsState → GsState
  | 0, s => s
  | n + 1, s => gsLoop profit gr n (gsStep profit gr s)

/-- Initial search state: bracket `[10^17, 10^20]` with both probes
evaluated. -/
def gsInit (profit : Nat → ℚ) (gr : Nat) : GsState :=
  let a := 10 ^ 17
  let b := 10 ^ 20
  let x1 := gsX1 gr a b
  let x2 := gsX2 gr a b
  { a := a, b := b, x1 := x1, x2 := x2, f1 := profit x1, f2 := profit x2 }

/-- Modelled value of `decimal_to_u256((Decimal(5).sqrt() - 1) / 2, 18)`
computed once per call in the source: `(√5 - 1)/2 = 0.61803398874989484820…`
scaled by `10^18` and rounded. -/
def GR : Nat := 618033988749894848

/-- The objective function handed to the golden-section search: net profit
at a given trial amount. -/
def gsProfit (quote : Quoter) (cfg : Config) (path : ArbPath)
    (base_gas_price_wei : Nat) (oracle_price eth_price : ℚ) : Nat → ℚ :=
  fun amt =>
    get_profit_for_amount quote cfg path amt base_gas_price_wei oracle_price eth_price

/-- The search state after the (up to) 15 golden-section iterations. -/
def gsFinalState (quote : Quoter) (cfg : Config) (path : ArbPath)
    (base_gas_price_wei : Nat) (oracle_price eth_price : ℚ) (gr : Nat) : GsState :=
  gsLoop (gsProfit quote cfg path base_gas_price_wei oracle_price eth_price) gr 15
    (gsInit (gsProfit quote cfg path base_gas_price_wei oracle_price eth_price) gr)

/-- The best net profit found by the search (`f1.max(f2)` at loop exit). -/
def bestNetProfit (quote : Quoter) (cfg : Config) (path : ArbPath)
    (base_gas_price_wei : Nat) (oracle_price eth_price : ℚ) (gr : Nat) : ℚ :=
  max (gsFinalState quote cfg path base_gas_price_wei oracle_price eth_price gr).f1
    (gsFinalState quote cfg path base_gas_price_wei oracle_price eth_price gr).f2

/-- Embedding of `optimization::find_best_trade_golden_section`.  External
inputs appear as parameters: the quoter, the ETH price from
`oracle_map.get_price(WETH)` (`none` models the `?` early exit), the route's
`ROUTE_STATS` entry (`RouteHistory.default` when absent, as `or_default`
inserts), the golden-ratio constant `gr` and `log10f`, the model of
`f64::log10` (not rational-valued, hence abstracted).  Returns the optional
opportunity together with the updated statistics entry. -/
def find_best_trade_golden_section (quote : Quoter) (cfg : Config)
    (log10f : ℚ → ℚ) (gr : Nat) (path : ArbPath) (base_gas_price_wei : Nat)
    (oracle_info : OraclePriceInfo) (eth_price_weth : Option ℚ)
    (hist : RouteHistory) (current_block : Nat) :
    Option ArbitrageOpportunity × RouteHistory :=
  match eth_price_weth with
  | none => (none, hist)
  | some eth_price =>
    let oracle_price := oracle_info.price
    let lag := oracle_info.lag
    let final := gsFinalState quote cfg path base_gas_price_wei oracle_price eth_price gr
    let optimal_amount := uadd final.a final.b / 2
    let net_profit_usd := bestNetProfit quote cfg path base_gas_price_wei oracle_price eth_price gr
    if net_profit_usd ≤ cfg.min_profit_usd then (none, hist) else
    let expected_output := (path.simulate_v3_path quote optimal_amount).getD 0
    let stats := { hist with last_attempt_block := current_block }
    let total_fee_bps := ((path.pool_1.fee + path.pool_2.fee + path.pool_3.fee : Nat) : ℚ)
    let fee_efficiency := 1 / (1 + total_fee_bps / 10000)
    let tvl_avg := (path.pool_1.tvl_usd + path.pool_2.tvl_usd + path.pool_3.tvl_usd) / 3
    let score := net_profit_usd * (1 + lag) * stats.winrate * fee_efficiency *
      max (log10f tvl_avg) 1
    let gas_cost_usd_estimate :=
      eth_price * u256_to_decimal (base_gas_price_wei * cfg.gas_limit) 18
    let gross_profit_usd := net_profit_usd + gas_cost_usd_estimate
    let bribe_usd := gross_profit_usd * cfg.max_bribe_percent
    (some { path := { path with score := score },
            optimal_amount_in := optimal_amount, expected_output := expected_output,
            net_profit_usd := net_profit_usd, bribe_usd := bribe_usd, lag := lag,
            tvl := tvl_avg, score := score, slippage_bps := 0 }, stats)

/-- Winrate over the reals, for the exact score formula
(`RouteHistory::winrate` again, viewed in `ℝ`). -/
noncomputable def winrateR (successes failures : Nat) : ℝ :=
  if successes + failures = 0 then 1/2
  else (successes : ℝ) / ((successes + failures : Nat) : ℝ)

/-- Exact embedding of the composite score computed at
`math.rs` lines 111–114 once an opportunity is accepted, over `ℝ` so that
`f64::log10` is `Real.logb 10` and `f64::max` is `max`:
`net * (1 + lag) * winrate * fee_efficiency * tvl_avg.log10().max(1.0)`
with `fee_efficiency = 1 / (1 + total_fee_bps / 10000)` and
`tvl_avg = (tvl_1 + tvl_2 + tvl_3) / 3`. -/
noncomputable def score_code (net_profit_usd lag : ℝ) (successes failures : Nat)
    (fee1 fee2 fee3 : Nat) (tvl1 tvl2 tvl3 : ℝ) : ℝ :=
  let total_fee_bps := ((fee1 + fee2 + fee3 : Nat) : ℝ)
  let fee_efficiency := 1 / (1 + total_fee_bps / 10000)
  let tvl_avg := (tvl1 + tvl2 + tvl3) / 3
  net_profit_usd * (1 + lag) * winrateR successes failures * fee_efficiency *
    max (Real.logb 10 tvl_avg) 1

/-- Score formula exactly as the specification words it (for the refinement
comparison): `net_profit_usd × (1 + lag) × winrate × fee_efficiency ×
log10(avg_tvl)` — with no lower clamp on the logarithm. -/
noncomputable def score_spec (net_profit_usd lag : ℝ) (successes failures : Nat)
    (fee1 fee2 fee3 : Nat) (tvl1 tvl2 tvl3 : ℝ) : ℝ :=
  let total_fee_bps := ((fee1 + fee2 + fee3 : Nat) : ℝ)
  let fee_efficiency := 1 / (1 + total_fee_bps / 10000)
  let tvl_avg := (tvl1 + tvl2 + tvl3) / 3
  net_profit_usd * (1 + lag) * winrateR successes failures * fee_efficiency *
    Real.logb 10 tvl_avg

/-- Modulus of `u64` arithmetic. -/
def U64_MOD : Nat := 2 ^ 64

/-- Route-failure cooldown span (`strategy::ROUTE_FAILURE_COOLDOWN_BLOCKS`). -/
def ROUTE_FAILURE_COOLDOWN_BLOCKS : Nat := 10

/-- Embedding of the cooldown test of `event_handler` (strategy.rs lines
75–83): with `stats = ROUTE_STATS.get(path.key())`, a present entry puts the
route in cooldown iff `block_number < last_failure_block +
ROUTE_FAILURE_COOLDOWN_BLOCKS`, the `u64` addition wrapping modulo `2^64`;
an absent entry never does. -/
def is_in_cooldown (stats : Option RouteHistory) (block_number : Nat) : Bool :=
  match stats with
  | some st =>
      block_number < (st.last_failure_block + ROUTE_FAILURE_COOLDOWN_BLOCKS) % U64_MOD
  | none => false

/-- Embedding of `strategy::calculate_dynamic_slippage`. -/
def calculate_dynamic_slippage (tvl net_profit_usd : ℚ) : Nat :=
  if 5000000 < tvl then
    if net_profit_usd < 100 then 8 else if net_profit_usd < 1000 then 12 else 15
  else if 500000 < tvl then
    if net_profit_usd < 50 then 18 else 25
  else 40

/-- Maximum opportunities per block (`strategy::OPPORTUNITY_BUNDLE_SIZE`). -/
def OPPORTUNITY_BUNDLE_SIZE : Nat := 5

/-- Character-code strings: the lock/route keys are byte strings of ASCII
codes, modelled as lists of naturals. -/
abbrev Chars := List Nat

/-- Lower-case hex digit characters (`'0'..'9'`, `'a'..'f'`). -/
def hexDigitChar (d : Nat) : Nat := if d < 10 then 48 + d else 87 + d

/-- The 40 hex digits of an `H160` as printed by its `Debug`
implementation (fixed width, most significant first). -/
def natHex40 (n : Nat) : Chars :=
  (List.range 40).map fun i => hexDigitChar (n / 16 ^ (39 - i) % 16)

/-- Characters of `format!("{:?}", address)`: `0x` followed by 40 hex
digits. -/
def addrChars (a : H160) : Chars := 48 :: 120 :: natHex40 a

/-- Embedding of `ArbPath::key`:
`format!("{:?}-{:?}-{:?}", pool_1.address, pool_2.address, pool_3.address)`. -/
def ArbPath.key (p : ArbPath) : Chars :=
  addrChars p.pool_1.address ++ 45 :: (addrChars p.pool_2.address ++
    45 :: addrChars p.pool_3.address)

/-- Characters of `format!("{}", n)` for an unsigned integer: decimal
digits, `"0"` for zero. -/
def natToChars (n : Nat) : Chars :=
  if n = 0 then [48] else (Nat.digits 10 n).reverse.map fun d => 48 + d

/-- Embedding of the lock key `format!("{}-{}", block_number, key)` built in
`lib::lock_opportunity`. -/
def lockKey (block_number : Nat) (key : Chars) : Chars :=
  natToChars block_number ++ 45 :: key

/-- The `EXECUTED_OPPORTUNITIES` hash set, threaded explicitly. -/
abbrev LockState := List Chars

/-- `HashSet::insert`: `true` iff the element was new. -/
def hsInsert (s : LockState) (x : Chars) : Bool × LockState :=
  if x ∈ s then (false, s) else (true, x :: s)

/-- Embedding of `lib::lock_opportunity`: insert
`format!("{}-{}", block_number, path.key())` into the executed set, returns
whether the insertion was new, together with the updated set. -/
def lock_opportunity (s : LockState) (block_number : Nat) (path : ArbPath) :
    Bool × LockState :=
  hsInsert s (lockKey block_number (ArbPath.key path))

/-- Insertion step for sorting opportunities by descending score
(`profitable_opportunities.sort_by(|a, b| b.score.partial_cmp(&a.score))`). -/
def insertByScoreDesc (o : ArbitrageOpportunity) :
    List ArbitrageOpportunity → List ArbitrageOpportunity
  | [] => [o]
  | q :: rest =>
      if o.score ≤ q.score then q :: insertByScoreDesc o rest
      else o :: q :: rest

/-- Deterministic model of the descending-score sort of `event_handler`. -/
def sortByScoreDesc : List ArbitrageOpportunity → List ArbitrageOpportunity
  | [] => []
  | o :: rest => insertByScoreDesc o (sortByScoreDesc rest)

/-- Embedding of the greedy bundle-selection loop of `event_handler`
(strategy.rs lines 110–130): walk the opportunity list, stop at
`OPPORTUNITY_BUNDLE_SIZE`, skip an opportunity whose three pool addresses
meet `used_pools`, apply the dynamic slippage, and admit it only if the
per-block lock succeeds, claiming its pools. -/
def selectBundle (block_number : Nat) :
    List ArbitrageOpportunity → List ArbitrageOpportunity → List H160 →
    LockState → List ArbitrageOpportunity × List H160 × LockState
  | [], bundle, used, locks => (bundle, used, locks)
  | opp :: rest, bundle, used, locks =>
      if OPPORTUNITY_BUNDLE_SIZE ≤ bundle.length then (bundle, used, locks)
      else
        let p1 := opp.path.address 1
        let p2 := opp.path.address 2
        let p3 := opp.path.address 3
        if p1 ∈ used ∨ p2 ∈ used ∨ p3 ∈ used then
          selectBundle block_number rest bundle used locks
        else
          let final_opp := { opp with
            slippage_bps := calculate_dynamic_slippage opp.tvl opp.net_profit_usd }
          match lock_opportunity locks block_number final_opp.path with
          | (true, locks') =>
              selectBundle block_number rest (bundle ++ [final_opp])
                (p1 :: p2 :: p3 :: used) locks'
          | (false, locks') =>
              selectBundle block_number rest bundle used locks'

/-- The bundle executed for a block: greedy selection over the score-sorted
opportunity list, starting from no claimed pools. -/
def executedBundle (block_number : Nat) (opps : List ArbitrageOpportunity)
    (locks : LockState) : List ArbitrageOpportunity :=
  (selectBundle block_number (sortByScoreDesc opps) [] [] locks).1

/-- The three pool addresses of an opportunity, as claimed in `used_pools`. -/
def oppAddresses (o : ArbitrageOpportunity) : List H160 :=
  [o.path.address 1, o.path.address 2, o.path.address 3]

/-- Observable steps of `execution::execute_single_transaction`, recorded in
order: encoding the calldata, estimating gas, and each submission attempt. -/
inductive ExecAction where
  | encode
  | estimateGas
  | submit (attempt : Nat)
deriving DecidableEq, Repr

/-- External effects of the execution path, as parameters: the gas estimate
(`none` = RPC failure), the WETH oracle price, and the outcome of each
submission attempt (`some hash` = accepted). -/
structure ExecEnv where
  estimate_gas : Option Nat
  eth_price : Option ℚ
  send_transaction : Nat → Option Nat

/-- The `for attempt in 0..3` submission loop with escalating priority fee
(`× 1.5`, truncated, from the second attempt on); `remaining` is the fuel
left in the range. -/
def attemptLoop (env : ExecEnv) :
    Nat → Nat → Nat → List ExecAction → Except String Nat × List ExecAction
  | 0, _, _, acts => (.error "Lógica de reintentos de envío de TX falló.", acts)
  | remaining + 1, attempt, fee_gwei, acts =>
      let fee := if 0 < attempt then fee_gwei * 3 / 2 else fee_gwei
      let acts := acts ++ [ExecAction.submit attempt]
      match env.send_transaction attempt with
      | some tx_hash => (.ok tx_hash, acts)
      | none =>
          if attempt < 2 then attemptLoop env remaining (attempt + 1) fee acts
          else (.error "TX falló tras 3 intentos", acts)

/-- Embedding of `execution::execute_single_transaction`: the invariant
guard, then calldata encoding, gas estimation, the ETH price fetch and the
submission loop, with the performed actions recorded in order. -/
def execute_single_transaction (env : ExecEnv) (opp : ArbitrageOpportunity)
    (_base_fee : Nat) : Except String Nat × List ExecAction :=
  if opp.optimal_amount_in = 0 ∨ opp.expected_output ≤ opp.optimal_amount_in then
    (.error "Monto inválido o no rentable.", [])
  else
    let acts1 := [ExecAction.encode]
    match env.estimate_gas with
    | none => (.error "estimate_gas failed", acts1 ++ [ExecAction.estimateGas])
    | some _gas =>
      let acts2 := acts1 ++ [ExecAction.estimateGas]
      match env.eth_price with
      | none => (.error "Failed to get ETH price", acts2)
      | some eth_price =>
        let bribe_in_eth := opp.bribe_usd / eth_price
        let fee0 := ratToU64 (bribe_in_eth * 1000000000)
        attemptLoop env 3 0 fee0 acts2

/-- Route validity predicate of the specification for a start token `tok`:
pairwise-distinct pool addresses, each hop's pool containing the two tokens
it links, the cycle closing at `tok`, and the three cycle tokens pairwise
distinct. -/
def routeValid (tok : H160) (p : ArbPath) : Prop :=
  p.pool_1.address ≠ p.pool_2.address ∧ p.pool_1.address ≠ p.pool_3.address ∧
  p.pool_2.address ≠ p.pool_3.address ∧
  (p.pool_1.token0 = tok ∨ p.pool_1.token1 = tok) ∧
  (p.pool_1.token0 = p.token_b ∨ p.pool_1.token1 = p.token_b) ∧
  (p.pool_2.token0 = p.token_b ∨ p.pool_2.token1 = p.token_b) ∧
  (p.pool_2.token0 = p.token_c ∨ p.pool_2.token1 = p.token_c) ∧
  (p.pool_3.token0 = p.token_c ∨ p.pool_3.token1 = p.token_c) ∧
  (p.pool_3.token0 = tok ∨ p.pool_3.token1 = tok) ∧
  p.token_b ≠ tok ∧ p.token_c ≠ tok ∧ p.token_c ≠ p.token_b

/-- Sample pool `1 ↔ 2` used by concrete witnesses. -/
def samplePool1 : Pool :=
  { address := 101, version := .uniswapV3, token0 := 1, token1 := 2,
    decimals0 := 18, decimals1 := 6, fee := 500, tvl_usd := 60000 }

/-- Sample pool `2 ↔ 3` used by concrete witnesses. -/
def samplePool2 : Pool :=
  { address := 102, version := .uniswapV3, token0 := 2, token1 := 3,
    decimals0 := 6, decimals1 := 8, fee := 3000, tvl_usd := 70000 }

/-- Sample pool `3 ↔ 1` used by concrete witnesses. -/
def samplePool3 : Pool :=
  { address := 103, version := .sushiV3, token0 := 3, token1 := 1,
    decimals0 := 8, decimals1 := 18, fee := 100, tvl_usd := 80000 }

/-- Sample triangular route `1 → 2 → 3 → 1` used by concrete witnesses. -/
def samplePath : ArbPath :=
  { pool_1 := samplePool1, pool_2 := samplePool2, pool_3 := samplePool3,
    token_a := 1, token_b := 2, token_c := 3, score := 0 }

/-- Degenerate pool whose two tokens coincide (`token0 = token1 = 1`),
admissible input to `generate_triangular_paths`. -/
def cxPoolAA : Pool :=
  { address := 101, version := .uniswapV3, token0 := 1, token1 := 1,
    decimals0 := 18, decimals1 := 18, fee := 500, tvl_usd := 60000 }

/-- Pool `1 ↔ 2` accompanying `cxPoolAA` in the counterexample. -/
def cxPoolAB : Pool :=
  { address := 102, version := .uniswapV3, token0 := 1, token1 := 2,
    decimals0 := 18, decimals1 := 6, fee := 500, tvl_usd := 60000 }

/-- Second pool `1 ↔ 2` (distinct address) accompanying `cxPoolAA`. -/
def cxPoolAB2 : Pool :=
  { address := 103, version := .uniswapV3, token0 := 1, token1 := 2,
    decimals0 := 18, decimals1 := 6, fee := 3000, tvl_usd := 60000 }

/-- Sample opportunity carried by concrete witnesses. -/
def sampleOpp : ArbitrageOpportunity :=
  { path := samplePath, optimal_amount_in := 10 ^ 18, expected_output := 2 * 10 ^ 18,
    net_profit_usd := 5, bribe_usd := 4, lag := 1/10, tvl := 70000, score := 3,
    slippage_bps := 0 }

/-- Pairwise pool-address disjointness of a list of opportunities. -/
def PoolDisjoint (l : List ArbitrageOpportunity) : Prop :=
  l.Pairwise fun o1 o2 => ∀ a, a ∈ oppAddresses o1 → a ∉ oppAddresses o2

/-- The bracket invariant claimed for the golden-section search:
`10^17 ≤ a ≤ b ≤ 10^20`. -/
def GsInv (s : GsState) : Prop :=
  10 ^ 17 ≤ s.a ∧ s.a ≤ s.b ∧ s.b ≤ 10 ^ 20

/-- Strengthened inductive invariant of the golden-section loop after `n`
steps, for the modelled ratio `GR`: the claimed bracket bounds, the probe
ordering `a ≤ x1 ≤ x2 ≤ b`, both probes within a slack band `1 + 60·n` of
their defining formulas (the band absorbs the drift caused by integer
division and by `GR` being a rounding of the exact golden ratio), and at
least one probe exactly equal to its formula (the one recomputed by the
latest step). -/
def GsFull (n : Nat) (s : GsState) : Prop :=
  100000000000000000 ≤ s.a ∧ s.a ≤ s.b ∧ s.b ≤ 100000000000000000000 ∧
  s.a ≤ s.x1 ∧ s.x1 ≤ s.x2 ∧ s.x2 ≤ s.b ∧
  s.x1 ≤ s.a + (s.b - s.a) * 381966011250105152 / 1000000000000000000 + (1 + 60 * n) ∧
  s.a + (s.b - s.a) * 381966011250105152 / 1000000000000000000 ≤ s.x1 + (1 + 60 * n) ∧
  s.x2 ≤ s.a + (s.b - s.a) * 618033988749894848 / 1000000000000000000 + (1 + 60 * n) ∧
  s.a + (s.b - s.a) * 618033988749894848 / 1000000000000000000 ≤ s.x2 + (1 + 60 * n) ∧
  (s.x1 = s.a + (s.b - s.a) * 381966011250105152 / 1000000000000000000 ∨
   s.x2 = s.a + (s.b - s.a) * 618033988749894848 / 1000000000000000000)

/-! ### C3: cooldown enforcement -/

/-- C3 (counterexample): the claim quantifies over every `u64` value of
`last_failure_block`.  At `B = 2^64 - 1` the `u64` addition
`B + ROUTE_FAILURE_COOLDOWN_BLOCKS` wraps to `9`, so block `N = B` — inside
the claimed cooldown window `B ≤ N ≤ B + 9` — is evaluated, not skipped. -/
theorem C3_cooldown_counterexample :
    2 ^ 64 - 1 ≤ 2 ^ 64 - 1 ∧
    2 ^ 64 - 1 ≤ (2 ^ 64 - 1) + ROUTE_FAILURE_COOLDOWN_BLOCKS - 1 ∧
    is_in_cooldown
      (some { successes := 0, failures := 1, last_attempt_block := 2 ^ 64 - 1,
              last_failure_block := 2 ^ 64 - 1 }) (2 ^ 64 - 1) = false := by
  refine ⟨le_refl _, by decide, by decide⟩

/-- C3 (amended): provided `B + ROUTE_FAILURE_COOLDOWN_BLOCKS` does not
overflow `u64`, a route whose `ROUTE_STATS` entry has
`last_failure_block = B` is in cooldown (skipped) at every block `N` with
`B ≤ N ≤ B + ROUTE_FAILURE_COOLDOWN_BLOCKS - 1` and is evaluated again at
every block `N ≥ B + ROUTE_FAILURE_COOLDOWN_BLOCKS`. -/
theorem C3_cooldown_window (st : RouteHistory) (B N : Nat)
    (hB : st.last_failure_block = B)
    (hNoOverflow : B + ROUTE_FAILURE_COOLDOWN_BLOCKS < 2 ^ 64) :
    (B ≤ N → N ≤ B + ROUTE_FAILURE_COOLDOWN_BLOCKS - 1 →
      is_in_cooldown (some st) N = true) ∧
    (B + ROUTE_FAILURE_COOLDOWN_BLOCKS ≤ N →
      is_in_cooldown (some st) N = false) := by
  have hmod : (st.last_failure_block + ROUTE_FAILURE_COOLDOWN_BLOCKS) % U64_MOD =
      B + ROUTE_FAILURE_COOLDOWN_BLOCKS := by
    rw [hB]
    exact Nat.mod_eq_of_lt (by simpa [U64_MOD] using hNoOverflow)
  constructor
  · intro h1 h2
    simp only [is_in_cooldown, hmod, decide_eq_true_eq]
    simp only [ROUTE_FAILURE_COOLDOWN_BLOCKS] at h2 ⊢
    omega
  · intro h1
    simp only [is_in_cooldown, hmod, decide_eq_false_iff_not]
    omega

/-- C3 (witness): a route that failed at block 5 is skipped at block 7 and
evaluated at block 15. -/
theorem C3_cooldown_window_witness :
    is_in_cooldown
      (some { successes := 0, failures := 1, last_attempt_block := 5,
              last_failure_block := 5 }) 7 = true ∧
    is_in_cooldown
      (some { successes := 0, failures := 1, last_attempt_block := 5,
              last_failure_block := 5 }) 15 = false := by
  constructor
  · exact (C3_cooldown_window _ 5 7 rfl (by decide)).1 (by decide) (by decide)
  · exact (C3_cooldown_window _ 5 15 rfl (by decide)).2 (by decide)

/-! ### C9: determinism of path generation -/

/-- C9: `generate_triangular_paths` is a pure function of the pool list (in
order), the start token and the oracle map — two calls on identical inputs
return identical route lists, element for element. -/
theorem C9_generate_deterministic (pools1 pools2 : List Pool)
    (t1 t2 : H160) (om1 om2 : OracleMap)
    (hp : pools1 = pools2) (ht : t1 = t2) (ho : om1 = om2) :
    generate_triangular_paths pools1 t1 om1 =
      generate_triangular_paths pools2 t2 om2 := by
  rw [hp, ht, ho]

/-- C9 (witness): concrete duplicate calls coincide. -/
theorem C9_generate_deterministic_witness :
    generate_triangular_paths [samplePool1, samplePool2, samplePool3] 1
        (fun _ => true) =
      generate_triangular_paths [samplePool1, samplePool2, samplePool3] 1
        (fun _ => true) :=
  C9_generate_deterministic _ _ _ _ _ _ rfl rfl rfl

/-! ### C8: execution guard -/

/-- Helper: the submission loop only ever appends to the action trace. -/
theorem attemptLoop_actions_extend (env : ExecEnv) :
    ∀ remaining attempt fee acts, ∃ ext,
      (attemptLoop env remaining attempt fee acts).2 = acts ++ ext := by
  intro remaining
  induction remaining with
  | zero => intro attempt fee acts; exact ⟨[], by simp [attemptLoop]⟩
  | succ n ih =>
      intro attempt fee acts
      simp only [attemptLoop]
      cases h : env.send_transaction attempt with
      | some tx => exact ⟨[ExecAction.submit attempt], by simp [h]⟩
      | none =>
          by_cases hlt : attempt < 2
          · obtain ⟨ext, hext⟩ := ih (attempt + 1)
              (if 0 < attempt then fee * 3 / 2 else fee)
              (acts ++ [ExecAction.submit attempt])
            exact ⟨ExecAction.submit attempt :: ext, by simp [h, hlt, hext]⟩
          · exact ⟨[ExecAction.submit attempt], by simp [h, hlt]⟩

/-- C8: an opportunity violating the `amount_in > 0` / `output > input`
invariants makes `execute_single_transaction` fail immediately with no
recorded action — no calldata encoding, no gas estimation, no submission
attempt; conversely, the empty-trace outcome occurs only on that guard. -/
theorem C8_execute_guard (env : ExecEnv) (opp : ArbitrageOpportunity)
    (base_fee : Nat) :
    (opp.optimal_amount_in = 0 ∨ opp.expected_output ≤ opp.optimal_amount_in →
      execute_single_transaction env opp base_fee =
        (.error "Monto inválido o no rentable.", [])) ∧
    ((execute_single_transaction env opp base_fee).2 = [] →
      opp.optimal_amount_in = 0 ∨ opp.expected_output ≤ opp.optimal_amount_in) := by
  constructor
  · intro h
    simp [execute_single_transaction, h]
  · intro h
    by_contra hviol
    simp only [execute_single_transaction, if_neg hviol] at h
    cases hg : env.estimate_gas with
    | none => simp [hg] at h
    | some g =>
        cases hp : env.eth_price with
        | none => simp [hg, hp] at h
        | some price =>
            simp only [hg, hp] at h
            obtain ⟨ext, hext⟩ := attemptLoop_actions_extend env 3 0
              (ratToU64 (opp.bribe_usd / price * 1000000000))
              ([ExecAction.encode] ++ [ExecAction.estimateGas])
            rw [hext] at h
            simp at h

/-- C8 (witness): a zero-amount opportunity is rejected with an empty
action trace. -/
theorem C8_execute_guard_witness :
    execute_single_transaction
      { estimate_gas := some 400000, eth_price := some 2000,
        send_transaction := fun _ => some 1 }
      { sampleOpp with optimal_amount_in := 0 } 0 =
      (.error "Monto inválido o no rentable.", []) :=
  (C8_execute_guard _ _ 0).1 (Or.inl rfl)

/-! ### C7: all-or-nothing route simulation -/

/-- C7: `simulate_v3_path` returns a value exactly when all three quotes
succeed and each of the two intermediate amounts is non-zero and feeds the
next hop; otherwise (any failed quote, any zero intermediate amount) it
returns `none` — never a partial result. -/
theorem C7_simulate_all_or_nothing (quote : Quoter) (p : ArbPath)
    (amount_in out : Nat) :
    p.simulate_v3_path quote amount_in = some out ↔
    ∃ o1 o2,
      quote p.pool_1.version (hopTokens p.pool_1 p.token_a).1
        (hopTokens p.pool_1 p.token_a).2 p.pool_1.fee amount_in = some o1 ∧
      o1 ≠ 0 ∧
      quote p.pool_2.version (hopTokens p.pool_2 p.token_b).1
        (hopTokens p.pool_2 p.token_b).2 p.pool_2.fee o1 = some o2 ∧
      o2 ≠ 0 ∧
      quote p.pool_3.version (hopTokens p.pool_3 p.token_c).1
        (hopTokens p.pool_3 p.token_c).2 p.pool_3.fee o2 = some out := by
  simp only [ArbPath.simulate_v3_path]
  cases h1 : quote p.pool_1.version (hopTokens p.pool_1 p.token_a).1
      (hopTokens p.pool_1 p.token_a).2 p.pool_1.fee amount_in with
  | none => simp [h1]
  | some o1 =>
      by_cases hz1 : o1 = 0
      · simp [h1, hz1]
      · simp only [if_neg hz1]
        cases h2 : quote p.pool_2.version (hopTokens p.pool_2 p.token_b).1
            (hopTokens p.pool_2 p.token_b).2 p.pool_2.fee o1 with
        | none => simp [h1, h2, hz1]
        | some o2 =>
            by_cases hz2 : o2 = 0
            · simp [h1, h2, hz1, hz2]
            · simp only [if_neg hz2]
              cases h3 : quote p.pool_3.version (hopTokens p.pool_3 p.token_c).1
                  (hopTokens p.pool_3 p.token_c).2 p.pool_3.fee o2 with
              | none => simp [h1, h2, h3, hz1, hz2]
              | some o3 => simp [h1, h2, h3, hz1, hz2]

/-! ### C4: per-block idempotent locking -/

/-- Helper: decimal digit characters never collide with the separator
`'-'` (code 45). -/
theorem natToChars_ne_dash (n : Nat) : ∀ c ∈ natToChars n, c ≠ 45 := by
  intro c hc
  unfold natToChars at hc
  split at hc
  · simp at hc
    omega
  · simp only [List.mem_map] at hc
    obtain ⟨d, _, rfl⟩ := hc
    omega

/-- Helper: the decimal rendering of a `u64` is injective. -/
theorem natToChars_injective (m n : Nat) (h : natToChars m = natToChars n) :
    m = n := by
  unfold natToChars at h
  split_ifs at h with hm hn hn
  · omega
  · exfalso
    have hlen := congrArg List.length h
    simp at hlen
    rcases hd : Nat.digits 10 n with _ | ⟨d, rest⟩
    · rw [hd] at hlen; simp at hlen
    · rw [hd] at hlen h
      simp at hlen
      rw [hlen] at h
      simp at h
      have hn' := Nat.ofDigits_digits 10 n
      rw [hd, hlen] at hn'
      simp [Nat.ofDigits] at hn'
      omega
  · exfalso
    have hlen := congrArg List.length h
    simp at hlen
    rcases hd : Nat.digits 10 m with _ | ⟨d, rest⟩
    · rw [hd] at hlen; simp at hlen
    · rw [hd] at hlen h
      simp at hlen
      rw [hlen] at h
      simp at h
      have hm' := Nat.ofDigits_digits 10 m
      rw [hd, hlen] at hm'
      simp [Nat.ofDigits] at hm'
      omega
  · have hinj : Function.Injective (fun d : Nat => 48 + d) := by
      intro x y hxy
      dsimp at hxy
      omega
    have hrev : (Nat.digits 10 m).reverse = (Nat.digits 10 n).reverse :=
      List.map_injective_iff.mpr hinj h
    have hdig : Nat.digits 10 m = Nat.digits 10 n := List.reverse_injective hrev
    have := congrArg (Nat.ofDigits 10) hdig
    simpa [Nat.ofDigits_digits] using this

/-- Helper: splitting at the first separator character is unambiguous when
neither prefix contains it. -/
theorem append_dash_inj (a : Chars) :
    ∀ (b k1 k2 : Chars), (∀ c ∈ a, c ≠ 45) → (∀ c ∈ b, c ≠ 45) →
      a ++ 45 :: k1 = b ++ 45 :: k2 → a = b ∧ k1 = k2 := by
  induction a with
  | nil =>
      intro b k1 k2 _ hb h
      cases b with
      | nil => simpa using h
      | cons y ys =>
          exfalso
          simp at h
          exact hb y (by simp) h.1.symm
  | cons x xs ih =>
      intro b k1 k2 ha hb h
      cases b with
      | nil =>
          exfalso
          simp at h
          exact ha x (by simp) h.1
      | cons y ys =>
          simp only [List.cons_append, List.cons.injEq] at h
          obtain ⟨rfl, h2⟩ := h
          obtain ⟨rfl, rfl⟩ := ih ys k1 k2 (fun c hc => ha c (by simp [hc]))
            (fun c hc => hb c (by simp [hc])) h2
          exact ⟨rfl, rfl⟩

/-- Helper: the composite lock key `"{block}-{route_key}"` determines both
the block number and the route key. -/
theorem lockKey_inj (b1 b2 : Nat) (k1 k2 : Chars)
    (h : lockKey b1 k1 = lockKey b2 k2) : b1 = b2 ∧ k1 = k2 := by
  unfold lockKey at h
  obtain ⟨h1, h2⟩ := append_dash_inj (natToChars b1) (natToChars b2) k1 k2
    (natToChars_ne_dash b1) (natToChars_ne_dash b2) h
  exact ⟨natToChars_injective b1 b2 h1, h2⟩

/-- C4: starting from a lock set not containing the pair, the first
`lock_opportunity` call for `(block, route)` returns `true`; repeating it on
the resulting set returns `false`; and any other `(block, route-key)` pair
not already present — in particular the same route at a different block —
still locks successfully: distinct pairs never block each other. -/
theorem C4_lock_idempotent (s : LockState) (bn : Nat) (p : ArbPath)
    (h : lockKey bn (ArbPath.key p) ∉ s) :
    (lock_opportunity s bn p).1 = true ∧
    (lock_opportunity (lock_opportunity s bn p).2 bn p).1 = false ∧
    (∀ bn' p', lockKey bn' (ArbPath.key p') ∉ s →
      (bn', ArbPath.key p') ≠ (bn, ArbPath.key p) →
      (lock_opportunity (lock_opportunity s bn p).2 bn' p').1 = true) := by
  refine ⟨?_, ?_, ?_⟩
  · simp [lock_opportunity, hsInsert, h]
  · simp [lock_opportunity, hsInsert, h]
  · intro bn' p' hnot hne
    simp only [lock_opportunity, hsInsert, if_neg h]
    have hkeyne : lockKey bn' (ArbPath.key p') ≠ lockKey bn (ArbPath.key p) := by
      intro heq
      obtain ⟨hb, hk⟩ := lockKey_inj bn' bn (ArbPath.key p') (ArbPath.key p) heq
      exact hne (by rw [hb, hk])
    simp [hkeyne, hnot]

/-- C4 (witness): on the empty lock set, locking the sample route at block 7
succeeds, relocking at block 7 fails, and locking the same route at block 8
succeeds. -/
theorem C4_lock_idempotent_witness :
    (lock_opportunity [] 7 samplePath).1 = true ∧
    (lock_opportunity (lock_opportunity [] 7 samplePath).2 7 samplePath).1 = false ∧
    (lock_opportunity (lock_opportunity [] 7 samplePath).2 8 samplePath).1 = true := by
  obtain ⟨h1, h2, h3⟩ := C4_lock_idempotent [] 7 samplePath (by simp)
  refine ⟨h1, h2, h3 8 samplePath (by simp) ?_⟩
  intro heq
  have := congrArg Prod.fst heq
  simp at this

/-! ### C2: pool-disjoint bundles -/

/-- Helper: the greedy selection loop preserves the invariant that every
admitted opportunity's pools are claimed in `used` and the bundle is
pairwise pool-disjoint. -/
theorem selectBundle_disjoint_aux (bn : Nat) :
    ∀ (opps bundle : List ArbitrageOpportunity) (used : List H160)
      (locks : LockState),
      (∀ o ∈ bundle, ∀ a ∈ oppAddresses o, a ∈ used) →
      PoolDisjoint bundle →
      PoolDisjoint (selectBundle bn opps bundle used locks).1 := by
  intro opps
  induction opps with
  | nil => intro bundle used locks _ hpair; simpa [selectBundle] using hpair
  | cons opp rest ih =>
      intro bundle used locks hsub hpair
      simp only [selectBundle]
      split
      · exact hpair
      · split
        · exact ih bundle used locks hsub hpair
        · rename_i hfull hskip
          set final := { opp with slippage_bps :=
            calculate_dynamic_slippage opp.tvl opp.net_profit_usd } with hfinal
          have haddr : oppAddresses final = oppAddresses opp := rfl
          cases hlock : lock_opportunity locks bn final.path with
          | mk ok locks' =>
              cases ok with
              | false =>
                  exact ih bundle used locks' hsub hpair
              | true =>
                  apply ih
                  · intro o ho a ha
                    rcases List.mem_append.mp ho with ho | ho
                    · have := hsub o ho a ha
                      simp [this]
                    · simp at ho
                      rw [ho, haddr] at ha
                      simp only [oppAddresses] at ha
                      simp at ha
                      rcases ha with ha | ha | ha <;> simp [ha]
                  · unfold PoolDisjoint
                    rw [List.pairwise_append]
                    refine ⟨hpair, by simp [PoolDisjoint], ?_⟩
                    intro o1 h1 o2 h2
                    simp at h2
                    subst h2
                    intro a ha1 ha2
                    have hused := hsub o1 h1 a ha1
                    rw [haddr] at ha2
                    simp only [oppAddresses] at ha2
                    simp at ha2
                    rcases ha2 with ha2 | ha2 | ha2 <;> rw [ha2] at hused <;>
                      exact hskip (by simp [hused])

/-- C2: the bundle selected for a block by the greedy walk over the
score-sorted opportunity list is pairwise pool-disjoint — no pool address
belongs to two different admitted opportunities. -/
theorem C2_bundle_pool_disjoint (block_number : Nat)
    (opps : List ArbitrageOpportunity) (locks : LockState) :
    PoolDisjoint (executedBundle block_number opps locks) :=
  selectBundle_disjoint_aux block_number (sortByScoreDesc opps) [] [] locks
    (by simp) (by simp [PoolDisjoint])

/-! ### C5: composite score formula -/

/-- C5 (counterexample): the code's score clamps `log10(avg_tvl)` below at
`1.0` (`tvl_avg.log10().max(1.0)`), the claimed formula does not.  At
`avg_tvl = 1` (`log10 = 0`) with one success, one failure and zero fees the
code scores `1/2`, the claimed formula `0`. -/
theorem C5_score_counterexample :
    score_code 1 0 1 1 0 0 0 1 1 1 ≠ score_spec 1 0 1 1 0 0 0 1 1 1 := by
  unfold score_code score_spec winrateR
  norm_num [Real.logb_one]

/-- C5 (amended): an accepted opportunity's score equals
`net_profit_usd × (1 + lag) × winrate × fee_efficiency ×
max(log10(avg_tvl), 1.0)`, with `fee_efficiency = 1/(1 + total_fee_bps/10000)`
over the summed pool fees, `avg_tvl` the arithmetic mean of the three pools'
TVL, and `winrate = successes/(successes + failures)` defaulting to `0.5`
for a route with no recorded attempts. -/
theorem C5_score_formula (net lag : ℝ) (s f fee1 fee2 fee3 : Nat)
    (t1 t2 t3 : ℝ) :
    score_code net lag s f fee1 fee2 fee3 t1 t2 t3 =
      net * (1 + lag) *
        (if s + f = 0 then (1/2 : ℝ) else (s : ℝ) / ((s : ℝ) + (f : ℝ))) *
        (1 / (1 + ((fee1 : ℝ) + (fee2 : ℝ) + (fee3 : ℝ)) / 10000)) *
        max (Real.logb 10 ((t1 + t2 + t3) / 3)) 1 := by
  unfold score_code winrateR
  split_ifs with h
  · push_cast
    ring
  · push_cast
    ring

/-! ### C6: rejection of unprofitable and unpriced routes -/

/-- Helper: one golden-section step keeps both cached objective values at
`-1` when the objective is constantly `-1`. -/
theorem gsStep_const_neg (prof : Nat → ℚ) (gr : Nat)
    (hconst : ∀ amt, prof amt = -1) (s : GsState)
    (h1 : s.f1 = -1) (h2 : s.f2 = -1) :
    (gsStep prof gr s).f1 = -1 ∧ (gsStep prof gr s).f2 = -1 := by
  unfold gsStep
  split_ifs with hb hf
  · exact ⟨h1, h2⟩
  · exact ⟨hconst _, h1⟩
  · exact ⟨h2, hconst _⟩

/-- Helper: the golden-section loop keeps both cached objective values at
`-1` when the objective is constantly `-1`. -/
theorem gsLoop_const_neg (prof : Nat → ℚ) (gr : Nat)
    (hconst : ∀ amt, prof amt = -1) :
    ∀ (n : Nat) (s : GsState), s.f1 = -1 → s.f2 = -1 →
      (gsLoop prof gr n s).f1 = -1 ∧ (gsLoop prof gr n s).f2 = -1 := by
  intro n
  induction n with
  | zero => intro s h1 h2; exact ⟨h1, h2⟩
  | succ k ih =>
      intro s h1 h2
      obtain ⟨h1', h2'⟩ := gsStep_const_neg prof gr hconst s h1 h2
      exact ih (gsStep prof gr s) h1' h2'

/-- C6: `find_best_trade_golden_section` rejects.  (i) When the ETH price is
unavailable it returns `none`.  (ii) When the best net profit found by the
search does not exceed `min_profit_usd` it returns `none`.  (iii) When the
start token's oracle price or the ETH price is non-positive, every trial
evaluation yields `-1.0`; (iv) and, provided `min_profit_usd ≥ 0`, the
optimizer then returns `none` rather than a zero-valued opportunity. -/
theorem C6_find_rejects (quote : Quoter) (cfg : Config) (log10f : ℚ → ℚ)
    (gr : Nat) (path : ArbPath) (base : Nat) (oinfo : OraclePriceInfo)
    (ethOpt : Option ℚ) (hist : RouteHistory) (blk : Nat) :
    (ethOpt = none →
      (find_best_trade_golden_section quote cfg log10f gr path base oinfo
        ethOpt hist blk).1 = none) ∧
    (∀ eth, ethOpt = some eth →
      bestNetProfit quote cfg path base oinfo.price eth gr ≤ cfg.min_profit_usd →
      (find_best_trade_golden_section quote cfg log10f gr path base oinfo
        ethOpt hist blk).1 = none) ∧
    (∀ eth amt, oinfo.price ≤ 0 ∨ eth ≤ 0 →
      get_profit_for_amount quote cfg path amt base oinfo.price eth = -1) ∧
    (∀ eth, ethOpt = some eth → oinfo.price ≤ 0 ∨ eth ≤ 0 →
      0 ≤ cfg.min_profit_usd →
      (find_best_trade_golden_section quote cfg log10f gr path base oinfo
        ethOpt hist blk).1 = none) := by
  have hdeg : ∀ eth amt, oinfo.price ≤ 0 ∨ eth ≤ 0 →
      get_profit_for_amount quote cfg path amt base oinfo.price eth = -1 := by
    intro eth amt h
    unfold get_profit_for_amount
    rcases h with h | h
    · rw [if_pos (Or.inr (Or.inl h))]
    · rw [if_pos (Or.inr (Or.inr h))]
  have hthresh : ∀ eth, ethOpt = some eth →
      bestNetProfit quote cfg path base oinfo.price eth gr ≤ cfg.min_profit_usd →
      (find_best_trade_golden_section quote cfg log10f gr path base oinfo
        ethOpt hist blk).1 = none := by
    intro eth heth hle
    subst heth
    simp only [find_best_trade_golden_section]
    rw [if_pos hle]
  refine ⟨?_, hthresh, hdeg, ?_⟩
  · intro h
    subst h
    rfl
  · intro eth heth hnp hmin
    apply hthresh eth heth
    have hconst : ∀ amt,
        gsProfit quote cfg path base oinfo.price eth amt = -1 := fun amt =>
      hdeg eth amt hnp
    have hinit1 : (gsInit (gsProfit quote cfg path base oinfo.price eth) gr).f1 = -1 :=
      hconst _
    have hinit2 : (gsInit (gsProfit quote cfg path base oinfo.price eth) gr).f2 = -1 :=
      hconst _
    obtain ⟨hf1, hf2⟩ := gsLoop_const_neg _ gr hconst 15 _ hinit1 hinit2
    unfold bestNetProfit gsFinalState
    rw [hf1, hf2]
    calc max (-1 : ℚ) (-1) = -1 := by norm_num
      _ ≤ 0 := by norm_num
      _ ≤ cfg.min_profit_usd := hmin

/-- C6 (witness): with a zero oracle price for the start token, a failing
quoter and `min_profit_usd = 0`, the optimizer rejects the sample route. -/
theorem C6_find_rejects_witness :
    (find_best_trade_golden_section (fun _ _ _ _ _ => none)
      { min_profit_usd := 0, gas_limit := 2000000, max_bribe_percent := 4/5 }
      id GR samplePath 0 { price := 0, lag := 1/10 } (some 2000)
      RouteHistory.default 1).1 = none :=
  (C6_find_rejects (fun _ _ _ _ _ => none)
      { min_profit_usd := 0, gas_limit := 2000000, max_bribe_percent := 4/5 }
      id GR samplePath 0 { price := 0, lag := 1/10 } (some 2000)
      RouteHistory.default 1).2.2.2 2000 rfl (Or.inl le_rfl) le_rfl

/-! ### C1: validity of generated routes -/

/-- Helper: membership through descending-TVL insertion. -/
theorem mem_insertByTvlDesc {x p : Pool} {l : List Pool} :
    x ∈ insertByTvlDesc p l ↔ x = p ∨ x ∈ l := by
  induction l with
  | nil => simp [insertByTvlDesc]
  | cons q rest ih =>
      unfold insertByTvlDesc
      split_ifs with hle
      · simp only [List.mem_cons, ih]
        tauto
      · simp only [List.mem_cons]

/-- Helper: the descending-TVL sort preserves membership. -/
theorem mem_sortByTvlDesc {x : Pool} {l : List Pool} :
    x ∈ sortByTvlDesc l ↔ x ∈ l := by
  induction l with
  | nil => simp [sortByTvlDesc]
  | cons p rest ih => simp [sortByTvlDesc, mem_insertByTvlDesc, ih]

/-- Helper: a pool listed under token `t` comes from the filtered pool list
and contains `t`. -/
theorem mem_pools_by_token {filtered : List Pool} {t : H160} {p : Pool}
    (h : p ∈ pools_by_token filtered t) :
    p ∈ filtered ∧ (p.token0 = t ∨ p.token1 = t) := by
  unfold pools_by_token at h
  have h' := List.mem_of_mem_take h
  rw [mem_sortByTvlDesc] at h'
  simp only [List.mem_flatMap] at h'
  obtain ⟨q, hq, hx⟩ := h'
  rcases List.mem_append.mp hx with hx | hx <;> {
    split_ifs at hx with ht
    · simp at hx
      subst hx
      exact ⟨hq, by tauto⟩
    · simp at hx
  }

/-- C1 (counterexample): with a degenerate input pool whose two tokens
coincide (`token0 = token1 = start`), `generate_triangular_paths` emits a
route whose intermediate token `token_b` equals the start token, violating
the claimed `token_b ≠ start_token`. -/
theorem C1_route_validity_counterexample :
    ∃ p ∈ generate_triangular_paths [cxPoolAA, cxPoolAB, cxPoolAB2] 1
      (fun _ => true), p.token_b = 1 := by
  decide

/-- C1 (amended): provided every input pool has two distinct tokens
(`token0 ≠ token1`, true of every real AMM pair), each generated route has
pairwise-distinct pool addresses, pool 1 containing the start token and
`token_b`, pool 2 containing `token_b` and `token_c`, pool 3 containing
`token_c` and the start token, and `token_b`, `token_c`, start pairwise
distinct. -/
theorem C1_route_validity (pools : List Pool) (token_in : H160)
    (om : OracleMap) (hdistinct : ∀ p ∈ pools, p.token0 ≠ p.token1) :
    ∀ path ∈ generate_triangular_paths pools token_in om,
      routeValid token_in path := by
  intro path hmem
  unfold generate_triangular_paths at hmem
  simp only [List.mem_flatMap] at hmem
  obtain ⟨pool_ab, hab, hmem⟩ := hmem
  set token_b := (if pool_ab.token0 = token_in then pool_ab.token1 else pool_ab.token0)
    with htb
  split_ifs at hmem with hom1
  · simp at hmem
  simp only [List.mem_flatMap] at hmem
  obtain ⟨pool_bc, hbc, hmem⟩ := hmem
  set token_c := (if pool_bc.token0 = token_b then pool_bc.token1 else pool_bc.token0)
    with htc
  split_ifs at hmem with hne1 hcne hom2
  · simp at hmem
  · simp at hmem
  · simp at hmem
  simp only [List.mem_flatMap] at hmem
  obtain ⟨pool_ca, hca, hmem⟩ := hmem
  split_ifs at hmem with hne2 hcloses
  · simp at hmem
  swap
  · simp at hmem
  simp only [List.mem_singleton] at hmem
  subst hmem
  obtain ⟨habf, habt⟩ := mem_pools_by_token hab
  obtain ⟨hbcf, hbct⟩ := mem_pools_by_token hbc
  obtain ⟨hcaf, _⟩ := mem_pools_by_token hca
  have hab_pools : pool_ab ∈ pools := (List.mem_filter.mp habf).1
  have hbc_pools : pool_bc ∈ pools := (List.mem_filter.mp hbcf).1
  have hab_ne : pool_ab.token0 ≠ pool_ab.token1 := hdistinct _ hab_pools
  have hbc_ne : pool_bc.token0 ≠ pool_bc.token1 := hdistinct _ hbc_pools
  push_neg at hne2
  refine ⟨fun h => hne1 h.symm, fun h => hne2.1 h.symm, fun h => hne2.2 h.symm,
    habt, ?_, hbct, ?_, ?_, ?_, ?_, hcne, ?_⟩
  · rw [htb]
    by_cases h : pool_ab.token0 = token_in
    · simp [h]
    · simp [h]
  · rw [htc]
    by_cases h : pool_bc.token0 = token_b
    · simp [h]
    · simp [h]
  · rcases hcloses with ⟨h1, _⟩ | ⟨h1, _⟩
    · exact Or.inl h1
    · exact Or.inr h1
  · rcases hcloses with ⟨_, h2⟩ | ⟨_, h2⟩
    · exact Or.inr h2
    · exact Or.inl h2
  · rw [htb]
    by_cases h : pool_ab.token0 = token_in
    · simp only [if_pos h]
      intro hh
      exact hab_ne (by rw [h, hh])
    · simp only [if_neg h]
      exact h
  · rw [htc]
    by_cases h : pool_bc.token0 = token_b
    · simp only [if_pos h]
      intro hh
      exact hbc_ne (by rw [h, hh])
    · simp only [if_neg h]
      exact h

/-- C1 (witness): the concrete route `1 → 2 → 3 → 1` generated from the
sample pools (all with distinct tokens) is valid. -/
theorem C1_route_validity_witness :
    routeValid 1
      { pool_1 := samplePool1, pool_2 := samplePool2, pool_3 := samplePool3,
        token_a := 1, token_b := 2, token_c := 3, score := 0 } :=
  C1_route_validity [samplePool1, samplePool2, samplePool3] 1 (fun _ => true)
    (by decide) _ (by decide)

/-! ### C10: the optimal amount stays inside the search bracket -/

/-- The `U256` modulus as a numeral. -/
theorem U256_MOD_eq : U256_MOD =
    115792089237316195423570985008687907853269984665640564039457584007913129639936 := by
  norm_num [U256_MOD]

/-- Wrapping subtraction agrees with truncated subtraction on reduced,
ordered operands. -/
theorem usub_eq_of_le {x y : Nat} (hyx : y ≤ x) (hx : x < U256_MOD) :
    usub x y = x - y := by
  unfold usub
  have hsplit : x + U256_MOD - y = U256_MOD + (x - y) := by omega
  rw [hsplit, Nat.add_mod_left]
  exact Nat.mod_eq_of_lt (by omega)

/-- Wrapping addition agrees with addition below the modulus. -/
theorem uadd_eq_of_lt {x y : Nat} (h : x + y < U256_MOD) : uadd x y = x + y :=
  Nat.mod_eq_of_lt h

/-- Wrapping multiplication agrees with multiplication below the modulus. -/
theorem umul_eq_of_lt {x y : Nat} (h : x * y < U256_MOD) : umul x y = x * y :=
  Nat.mod_eq_of_lt h

/-- The complementary ratio `10^18 - GR`. -/
theorem usub_D_GR : usub (10 ^ 18) GR = 381966011250105152 := by
  rw [usub_eq_of_le (by norm_num [GR]) (by rw [U256_MOD_eq]; norm_num)]
  norm_num [GR]

/-- The lower probe formula, with the `U256` wrapping stripped under the
bracket bounds. -/
theorem gsX1_eq {a b : Nat} (hab : a ≤ b) (hb : b ≤ 100000000000000000000) :
    gsX1 GR a b = a + (b - a) * 381966011250105152 / 1000000000000000000 := by
  have hMOD := U256_MOD_eq
  unfold gsX1
  rw [usub_D_GR, usub_eq_of_le hab (by omega)]
  have hmul : (b - a) * 381966011250105152 ≤
      100000000000000000000 * 381966011250105152 :=
    Nat.mul_le_mul_right _ (by omega)
  rw [umul_eq_of_lt (by omega)]
  have hdiv : (b - a) * 381966011250105152 / 10 ^ 18 ≤
      (b - a) * 381966011250105152 := Nat.div_le_self _ _
  rw [uadd_eq_of_lt (by omega)]
  norm_num

/-- The upper probe formula, with the `U256` wrapping stripped under the
bracket bounds. -/
theorem gsX2_eq {a b : Nat} (hab : a ≤ b) (hb : b ≤ 100000000000000000000) :
    gsX2 GR a b = a + (b - a) * 618033988749894848 / 1000000000000000000 := by
  have hMOD := U256_MOD_eq
  have hGR : GR = 618033988749894848 := rfl
  unfold gsX2
  rw [hGR, usub_eq_of_le hab (by omega)]
  have hmul : (b - a) * 618033988749894848 ≤
      100000000000000000000 * 618033988749894848 :=
    Nat.mul_le_mul_right _ (by omega)
  rw [umul_eq_of_lt (by omega)]
  have hdiv : (b - a) * 618033988749894848 / 10 ^ 18 ≤
      (b - a) * 618033988749894848 := Nat.div_le_self _ _
  rw [uadd_eq_of_lt (by omega)]
  norm_num

/-- The initial golden-section state satisfies the strengthened
invariant. -/
theorem gsInit_full (prof : Nat → ℚ) : GsFull 0 (gsInit prof GR) := by
  have e1 := gsX1_eq (a := 10 ^ 17) (b := 10 ^ 20) (by norm_num) (by norm_num)
  have e2 := gsX2_eq (a := 10 ^ 17) (b := 10 ^ 20) (by norm_num) (by norm_num)
  unfold gsInit GsFull
  simp only [e1, e2]
  norm_num

/-- One golden-section step preserves the strengthened invariant (band
widened by one step). -/
theorem gsStep_full (prof : Nat → ℚ) (n : Nat) (hn : n ≤ 15) (s : GsState)
    (h : GsFull n s) : GsFull (n + 1) (gsStep prof GR s) := by
  obtain ⟨h1, h2, h3, h4, h5, h6, h7, h8, h9, h10, h11⟩ := h
  have hMOD := U256_MOD_eq
  unfold gsStep
  rw [usub_eq_of_le h2 (by omega),
    show GS_TOL = 1000000000000000 from by norm_num [GS_TOL]]
  split_ifs with hbreak hcmp
  · exact ⟨h1, h2, h3, h4, h5, h6, by omega, by omega, by omega, by omega,
      by rcases h11 with h11 | h11 <;> [exact Or.inl h11; exact Or.inr h11]⟩
  · -- f1 > f2: shrink to [a, x2], refresh x1
    dsimp only
    rw [gsX1_eq (h4.trans h5) (by omega)]
    unfold GsFull
    dsimp only
    refine ⟨h1, h4.trans h5, by omega, by omega, ?_, h5, by omega, by omega,
      ?_, ?_, Or.inl rfl⟩
    · rcases h11 with h11 | h11 <;> omega
    · rcases h11 with h11 | h11 <;> omega
    · rcases h11 with h11 | h11 <;> omega
  · -- f1 ≤ f2: shrink to [x1, b], refresh x2
    dsimp only
    rw [gsX2_eq (h5.trans h6) h3]
    unfold GsFull
    dsimp only
    refine ⟨by omega, h5.trans h6, h3, h5, ?_, ?_, ?_, ?_, by omega, by omega,
      Or.inr rfl⟩
    · rcases h11 with h11 | h11 <;> omega
    · omega
    · rcases h11 with h11 | h11 <;> omega
    · rcases h11 with h11 | h11 <;> omega

/-- Iterating golden-section steps preserves the strengthened invariant. -/
theorem gsLoop_full (prof : Nat → ℚ) :
    ∀ (fuel n : Nat), fuel + n ≤ 15 → ∀ s, GsFull n s →
      GsFull (n + fuel) (gsLoop prof GR fuel s) := by
  intro fuel
  induction fuel with
  | zero => intro n _ s hs; simpa [gsLoop] using hs
  | succ k ih =>
      intro n hfn s hs
      have hstep := gsStep_full prof n (by omega) s hs
      have hrec := ih (n + 1) (by omega) _ hstep
      have heq : n + (k + 1) = n + 1 + k := by omega
      rw [heq]
      exact hrec

/-- The strengthened invariant implies the claimed bracket invariant. -/
theorem GsFull_to_GsInv {n : Nat} {s : GsState} (h : GsFull n s) : GsInv s := by
  obtain ⟨h1, h2, h3, _⟩ := h
  refine ⟨?_, h2, ?_⟩
  · calc (10 : Nat) ^ 17 = 100000000000000000 := by norm_num
      _ ≤ s.a := h1
  · calc s.b ≤ 100000000000000000000 := h3
      _ = 10 ^ 20 := by norm_num

/-- C10: for the modelled golden-ratio constant `GR`, the golden-section
loop keeps the bracket inside `[10^17, 10^20]` at every iteration count up
to 15, and every opportunity the optimizer returns carries
`optimal_amount_in = (a + b) / 2` for the final bracket — hence
`10^17 ≤ optimal_amount_in ≤ 10^20`. -/
theorem C10_optimal_amount_bracket (quote : Quoter) (cfg : Config)
    (log10f : ℚ → ℚ) (path : ArbPath) (base : Nat) (oinfo : OraclePriceInfo)
    (ethOpt : Option ℚ) (hist : RouteHistory) (blk : Nat) :
    (∀ (prof : Nat → ℚ) (k : Nat), k ≤ 15 →
      GsInv (gsLoop prof GR k (gsInit prof GR))) ∧
    (∀ eth opp, ethOpt = some eth →
      (find_best_trade_golden_section quote cfg log10f GR path base oinfo
        ethOpt hist blk).1 = some opp →
      opp.optimal_amount_in =
        ((gsFinalState quote cfg path base oinfo.price eth GR).a +
          (gsFinalState quote cfg path base oinfo.price eth GR).b) / 2 ∧
      10 ^ 17 ≤ opp.optimal_amount_in ∧ opp.optimal_amount_in ≤ 10 ^ 20) := by
  have hfull : ∀ (prof : Nat → ℚ) (k : Nat), k ≤ 15 →
      GsFull k (gsLoop prof GR k (gsInit prof GR)) := by
    intro prof k hk
    have := gsLoop_full prof k 0 (by omega) _ (gsInit_full prof)
    simpa using this
  constructor
  · intro prof k hk
    exact GsFull_to_GsInv (hfull prof k hk)
  · intro eth opp heth hfind
    subst heth
    have hfin : GsFull 15 (gsFinalState quote cfg path base oinfo.price eth GR) :=
      hfull (gsProfit quote cfg path base oinfo.price eth) 15 le_rfl
    obtain ⟨hg1, hg2, hg3, _⟩ := hfin
    simp only [find_best_trade_golden_section] at hfind
    by_cases hle : bestNetProfit quote cfg path base oinfo.price eth GR ≤
        cfg.min_profit_usd
    · rw [if_pos hle] at hfind
      simp at hfind
    · rw [if_neg hle] at hfind
      simp only [Option.some.injEq] at hfind
      subst hfind
      dsimp only
      rw [uadd_eq_of_lt (by rw [U256_MOD_eq]; omega)]
      refine ⟨rfl, ?_, ?_⟩
      · calc (10 : Nat) ^ 17 = 100000000000000000 := by norm_num
          _ ≤ _ := by omega
      · calc _ ≤ 100000000000000000000 := by omega
          _ = (10 : Nat) ^ 20 := by norm_num

/-- C10 (witness): the bracket invariant holds concretely after the full 15
iterations on a constant objective. -/
theorem C10_optimal_amount_bracket_witness :
    GsInv (gsLoop (fun _ => 0) GR 15 (gsInit (fun _ => 0) GR)) :=
  (C10_optimal_amount_bracket (fun _ _ _ _ _ => none)
      { min_profit_usd := 0, gas_limit := 2000000, max_bribe_percent := 4/5 }
      id samplePath 0 { price := 0, lag := 0 } none RouteHistory.default 0).1
    (fun _ => 0) 15 le_rfl

end MevBot
